import Mathlib

/-!
Verification of the crawl-to-index pipeline of the Search-Engine repository.

The development shallowly embeds the Python sources:
  * `backend/dataStructures/thicctable.py` — the Index Store (`Thicctable`),
  * `backend/crawlers/crawler.py`          — the Frontier (`enqueue_urlList`)
    and the worker-pool configuration of `scrape_urlList`,
  * `backend/crawlers/urlAnalyzer.py`      — the URL normalizer (`clean_url`).

Python values are embedded as follows: a `dict` with string keys becomes an
association list that keeps insertion order (Python 3.7+ dicts are ordered);
assignment `d[k] = v` replaces the value in place when `k` is present and
appends `(k, v)` otherwise; reading `d[k]` or `del d[k]` on a missing key
raises `KeyError`, embedded with `Except`.  Scores (Python floats produced by
the ranker) are embedded as `Int`: only their ordering matters to the claims.
-/

/-- Embedding of the `Page` object of `dataStructures/pageObj.py` (the class
itself is outside the analysed sources; the fields used by `thicctable.py`
are `url` and `knowledgeTokens`). -/
structure Page where
  url : String
  knowledgeTokens : List String
deriving DecidableEq, Repr

/-- A `pageTuple`: the `(score, pageObj)` pair stored in every bucket. -/
def PageTuple : Type := Int × Page

instance : DecidableEq PageTuple := by
  unfold PageTuple
  infer_instance

/-- The `topDict` of a `Thicctable`: a string-keyed insertion-ordered dict
mapping each key to its bucket (list of page tuples). -/
def Store : Type := List (String × List PageTuple)

instance : DecidableEq Store := by
  unfold Store
  infer_instance

/-- Python errors raised by the embedded operations. -/
inductive PyErr where
  | keyError (k : String)
  | typeError (msg : String)
deriving DecidableEq, Repr

/-- The key set of the dict, `key in self.topDict`. -/
def keys (s : Store) : List String := s.map Prod.fst

/-- Dict read `self.topDict[key]`, returning `none` when the key is absent
(the caller turns that into a `KeyError`). -/
def dictGet (s : Store) (k : String) : Option (List PageTuple) :=
  match s with
  | [] => none
  | (k', v) :: rest => if k' = k then some v else dictGet rest k

/-- Dict assignment `self.topDict[key] = v`: replaces the value in place when
the key is present, appends the pair at the end otherwise. -/
def dictSet (s : Store) (k : String) (v : List PageTuple) : Store :=
  match s with
  | [] => [(k, v)]
  | (k', v') :: rest => if k' = k then (k, v) :: rest else (k', v') :: dictSet rest k v

/-- `Thicctable.add_key`: `self.topDict.update({key:[]})`. -/
def add_key (s : Store) (k : String) : Store := dictSet s k []

/-- Removal of an entry from the dict: the effect of Python `del d[k]` on a
present key (dict keys are unique, so at most one entry carries `k`). -/
def delKey (s : Store) (k : String) : Store :=
  match s with
  | [] => []
  | (k', v) :: rest => if k' = k then rest else (k', v) :: delKey rest k

/-- `Thicctable.remove_key`: `del self.topDict[key]`.  Python `del` on a
missing key raises `KeyError`; on a present key it removes that entry and
nothing else. -/
def remove_key (s : Store) (k : String) : Except PyErr Store :=
  if k ∈ keys s then .ok (delKey s k) else .error (.keyError k)

/-- `Thicctable.clear_key`: `self.topDict[key] = []`. -/
def clear_key (s : Store) (k : String) : Store := dictSet s k []

/-- `Thicctable.clip_key`: `self.topDict[key] = self.topDict[key][:n]`.
Reading `self.topDict[key]` raises `KeyError` when the key is absent; the
slice `[:n]` for `n >= 0` is `List.take n`. -/
def clip_key (s : Store) (k : String) (n : Nat) : Except PyErr Store :=
  match dictGet s k with
  | none => .error (.keyError k)
  | some b => .ok (dictSet s k (b.take n))

/-- `Thicctable.insert_pageTuple`: `self.topDict[key].append(pageTuple)`.
Raises `KeyError` when the key is absent. -/
def insert_pageTuple (s : Store) (k : String) (pt : PageTuple) : Except PyErr Store :=
  match dictGet s k with
  | none => .error (.keyError k)
  | some b => .ok (dictSet s k (b ++ [pt]))

/-- `Thicctable.remove_value`: filters out of `topDict[key]` every page tuple
whose page object's `url` equals the given url
(`filter(lambda pageTuple: pageTuple[1].url != url, self.topDict[key])`). -/
def remove_value (s : Store) (k : String) (url : String) : Except PyErr Store :=
  match dictGet s k with
  | none => .error (.keyError k)
  | some b => .ok (dictSet s k (b.filter (fun pt => pt.2.url ≠ url)))

/-- The comparison key of `Thicctable.sort_key`: `list.sort(key=get_score,
reverse=True)` orders `a` before `b` exactly when `a` need not come after
`b`, i.e. when `b.score <= a.score`. -/
def bucketGE (a b : PageTuple) : Prop := b.1 ≤ a.1

instance : DecidableRel bucketGE := fun a b => by
  unfold bucketGE
  infer_instance

instance : IsTotal PageTuple bucketGE :=
  ⟨fun a b => le_total b.1 a.1⟩

instance : IsTrans PageTuple bucketGE :=
  ⟨fun _ _ _ h1 h2 => le_trans h2 h1⟩

/-- The denotation of Python `list.sort(key=get_score, reverse=True)`: the
stable sort of the bucket, non-increasing by score.  Python's sort is the
stable sort for this ordering, and the stable sort is unique, so insertion
sort with the reflexive descending relation `bucketGE` (which keeps an
earlier element before a later one of equal score) computes it. -/
def sortBucket (b : List PageTuple) : List PageTuple :=
  List.insertionSort bucketGE b

/-- `Thicctable.sort_key`: `self.topDict[key].sort(key=get_score,
reverse=True)`.  Reading `self.topDict[key]` raises `KeyError` when the key
is absent. -/
def sort_key (s : Store) (k : String) : Except PyErr Store :=
  match dictGet s k with
  | none => .error (.keyError k)
  | some b => .ok (dictSet s k (sortBucket b))

/-- `Thicctable.search_full`: `return self.topDict[key][:n]`.  A pure read:
the method assigns nothing, so the store is unchanged. -/
def search_full (s : Store) (k : String) (n : Nat) : Except PyErr (List PageTuple) :=
  match dictGet s k with
  | none => .error (.keyError k)
  | some b => .ok (b.take n)

/-- One iteration of the loop of `Thicctable.bucket_page` for one token: the
`try` block scores the page (`pageRanker.score_single`, a collaborator
passed in as a function; any exception it raises is the `error` case) and
inserts the `(score, pageObj)` tuple; `except` prints and continues, leaving
the store as it was. -/
def bucket_step (score_single : Page → String → Except PyErr Int)
    (pageObj : Page) (s : Store) (token : String) : Store :=
  match score_single pageObj token with
  | .error _ => s
  | .ok sc =>
      match insert_pageTuple s token (sc, pageObj) with
      | .error _ => s
      | .ok s2 => s2

/-- The loop of `Thicctable.bucket_page` over an explicit token list. -/
def bucket_pageAux (score_single : Page → String → Except PyErr Int)
    (pageObj : Page) (s : Store) (tokens : List String) : Store :=
  tokens.foldl (bucket_step score_single pageObj) s

/-- `Thicctable.bucket_page`: iterates over `pageObj.knowledgeTokens`,
scoring and inserting each token inside a per-token `try`/`except`. -/
def bucket_page (score_single : Page → String → Except PyErr Int)
    (s : Store) (pageObj : Page) : Store :=
  bucket_pageAux score_single pageObj s pageObj.knowledgeTokens

/-! ## Frontier: `scrape_urlList` / `enqueue_urlList` of `crawlers/crawler.py` -/

/-- The state shared by `enqueue_urlList` in `scrape_urlList`: the dedup set
`scrapedUrls` (a Python `set`, embedded as a list whose membership is what
matters) and the pending FIFO `urlQueue` (`queue.Queue`; `put` appends at
the tail). -/
structure CrawlState where
  scrapedUrls : List String
  urlQueue : List String
deriving DecidableEq, Repr

/-- One iteration of the loop in `enqueue_urlList`:
`if not url in scrapedUrls: scrapedUrls.add(url); urlQueue.put(url)`. -/
def enqueue_step (st : CrawlState) (url : String) : CrawlState :=
  if url ∈ st.scrapedUrls then st
  else { scrapedUrls := st.scrapedUrls ++ [url], urlQueue := st.urlQueue ++ [url] }

/-- `enqueue_urlList`: folds `enqueue_step` over the url list. -/
def enqueue_urlList (st : CrawlState) (urlList : List String) : CrawlState :=
  urlList.foldl enqueue_step st

/-- Default `queueDepth` of `scrape_urlList(urlList, queueDepth=10,
workerNum=20, maxLen=100, outPath="")`: the capacity of `Queue(queueDepth)`. -/
def defaultQueueDepth : Nat := 10

/-- Default `workerNum` of `scrape_urlList`: the number of worker threads
spawned by `for _ in range(workerNum): Thread(target=worker).start()`. -/
def defaultWorkerNum : Nat := 20

/-- Whether the enqueue of `scrape_urlList` blocks when the queue is at
capacity: `urlQueue.put(url)` uses the `queue.Queue.put` default
`block=True`, so it suspends rather than dropping overflow. -/
def urlQueuePutBlocks : Bool := true

/-! ## URL normalizer: `clean_url` of `crawlers/urlAnalyzer.py`

A Python `str` is a sequence of characters, embedded as `List Char`;
`str.startswith(p)` is `p.isPrefixOf s` and `+` is list append.  The helper
`htmlAnalyzer.parsable` lives in a module outside the analysed sources, so
it is kept abstract: an arbitrary total boolean predicate, which is all the
spec guarantees about it. -/

/-- `clean_url(url)`: returns the url unchanged when it is parsable or
already starts with `http`; prepends `http://` when it starts with `www`,
and `http://www.` otherwise. -/
def clean_url (parsable : List Char → Bool) (url : List Char) : List Char :=
  if parsable url then url
  else if ("http".data).isPrefixOf url then url
  else if ("www".data).isPrefixOf url then "http://".data ++ url
  else "http://www.".data ++ url

/-! ## Snapshot: `Thicctable.save` / `Thicctable.load`

`save` is `json.dump(self.topDict, FileObj)`.  The embedding models the
value produced by the `json` encoder: a JSON value for each Python value it
accepts, and a `TypeError` where CPython's `json.JSONEncoder.default`
raises one — namely on any object that is not `dict`/`list`/`tuple`/`str`/
`int`/`float`/`bool`/`None`.  A `Page` is a plain class instance
(`dataStructures/pageObj.py`), so encoding it raises
`TypeError: Object of type Page is not JSON serializable`. -/

/-- JSON values producible by the `json` module. -/
inductive JVal where
  | num (n : Int)
  | str (s : String)
  | arr (l : List JVal)
  | obj (l : List (String × JVal))

/-- Encoding of a score: a Python number, accepted by the `json` encoder. -/
def encodeScore (n : Int) : Except PyErr JVal := .ok (.num n)

/-- Encoding of a `Page` object: CPython's `json` encoder raises `TypeError`
for class instances it does not know. -/
def encodePage (_ : Page) : Except PyErr JVal :=
  .error (.typeError "Object of type Page is not JSON serializable")

/-- Encoding of one `(score, pageObj)` tuple: the encoder serializes a tuple
as a JSON array, element by element. -/
def encodePageTuple (pt : PageTuple) : Except PyErr JVal := do
  let s ← encodeScore pt.1
  let p ← encodePage pt.2
  .ok (.arr [s, p])

/-- Encoding of one bucket: a JSON array of encoded page tuples. -/
def encodeBucket (b : List PageTuple) : Except PyErr JVal := do
  let l ← b.mapM encodePageTuple
  .ok (.arr l)

/-- `Thicctable.save`: the JSON value `json.dump` writes for `topDict` (a
JSON object with one member per key), or the `TypeError` it raises. -/
def save (s : Store) : Except PyErr JVal := do
  let l ← s.mapM (fun kv => do
    let bv ← encodeBucket kv.2
    pure (kv.1, bv))
  .ok (.obj l)

/-! ## Lemmas about the dict embedding -/

theorem dictGet_dictSet_self (s : Store) (k : String) (v : List PageTuple) :
    dictGet (dictSet s k v) k = some v := by
  induction s with
  | nil => simp [dictSet, dictGet]
  | cons hd tl ih =>
      by_cases h : hd.1 = k
      · simp [dictSet, dictGet, h]
      · simp [dictSet, dictGet, h, ih]

theorem dictGet_dictSet_ne (s : Store) (k k2 : String) (v : List PageTuple)
    (h : k2 ≠ k) : dictGet (dictSet s k v) k2 = dictGet s k2 := by
  have hne : ¬ k = k2 := fun e => h e.symm
  induction s with
  | nil => simp [dictSet, dictGet, hne]
  | cons hd tl ih =>
      by_cases hh : hd.1 = k
      · have hne2 : ¬ hd.1 = k2 := fun e => h (e ▸ hh)
        simp [dictSet, dictGet, hh, hne, hne2]
      · by_cases hk2 : hd.1 = k2
        · simp [dictSet, dictGet, hh, hk2, h]
        · simp [dictSet, dictGet, hh, hk2, h, ih]

theorem dictGet_eq_none_iff (s : Store) (k : String) :
    dictGet s k = none ↔ k ∉ keys s := by
  induction s with
  | nil => simp [dictGet, keys]
  | cons hd tl ih =>
      by_cases h : hd.1 = k
      · simp [dictGet, keys, h]
      · have hne : ¬ k = hd.1 := fun e => h e.symm
        simp [dictGet, keys, h, ih, hne]

theorem mem_keys_exists_bucket (s : Store) (k : String) (h : k ∈ keys s) :
    ∃ b, dictGet s k = some b := by
  rcases hg : dictGet s k with _ | b
  · exact absurd ((dictGet_eq_none_iff s k).mp hg) (not_not.mpr h)
  · exact ⟨b, rfl⟩

theorem dictGet_delKey_ne (s : Store) (k k2 : String) (h : k2 ≠ k) :
    dictGet (delKey s k) k2 = dictGet s k2 := by
  induction s with
  | nil => simp [delKey]
  | cons hd tl ih =>
      have hne : ¬ k = k2 := fun e => h e.symm
      by_cases hh : hd.1 = k
      · have hne2 : ¬ hd.1 = k2 := fun e => h (e ▸ hh)
        simp [delKey, dictGet, hh, hne, hne2]
      · by_cases hk2 : hd.1 = k2
        · simp [delKey, dictGet, hh, hk2, h]
        · simp [delKey, dictGet, hh, hk2, h, ih]

theorem dictGet_delKey_self (s : Store) (k : String) (hnd : (keys s).Nodup) :
    dictGet (delKey s k) k = none := by
  induction s with
  | nil => simp [delKey, dictGet]
  | cons hd tl ih =>
      rcases List.nodup_cons.mp hnd with ⟨hhd, htl⟩
      by_cases hh : hd.1 = k
      · have : k ∉ keys tl := hh ▸ hhd
        simp [delKey, hh, (dictGet_eq_none_iff tl k).mpr this]
      · simp [delKey, dictGet, hh, ih htl]

/-! ## Stability of the descending sort -/

theorem filter_orderedInsert_score (x : PageTuple) (l : List PageTuple) (sc : Int) :
    (List.orderedInsert bucketGE x l).filter (fun p => p.1 == sc) =
      if x.1 = sc then x :: l.filter (fun p => p.1 == sc)
      else l.filter (fun p => p.1 == sc) := by
  induction l with
  | nil =>
      by_cases h : x.1 = sc
      · have hb : (x.1 == sc) = true := by simp [h]
        simp [List.orderedInsert, List.filter, h, hb]
      · have hb : (x.1 == sc) = false := by simp [h]
        simp [List.orderedInsert, List.filter, h, hb]
  | cons y ys ih =>
      by_cases hr : bucketGE x y
      · by_cases h : x.1 = sc
        · have hb : (x.1 == sc) = true := by simp [h]
          simp [List.orderedInsert, hr, List.filter, h, hb]
        · have hb : (x.1 == sc) = false := by simp [h]
          simp [List.orderedInsert, hr, List.filter, h, hb]
      · have hlt : x.1 < y.1 := lt_of_not_le hr
        by_cases h : x.1 = sc
        · have hy : (y.1 == sc) = false := by
            simp only [beq_eq_false_iff_ne, ne_eq]
            intro e
            omega
          simp [List.orderedInsert, hr, List.filter, h, hy, ih]
        · by_cases hy : y.1 = sc
          · have hby : (y.1 == sc) = true := by simp [hy]
            simp [List.orderedInsert, hr, List.filter, h, hby, ih]
          · have hby : (y.1 == sc) = false := by simp [hy]
            simp [List.orderedInsert, hr, List.filter, h, hby, ih]

theorem filter_sortBucket (b : List PageTuple) (sc : Int) :
    (sortBucket b).filter (fun p => p.1 == sc) = b.filter (fun p => p.1 == sc) := by
  induction b with
  | nil => simp [sortBucket, List.insertionSort]
  | cons x xs ih =>
      unfold sortBucket at ih ⊢
      by_cases h : x.1 = sc
      · have hb : (x.1 == sc) = true := by simp [h]
        simp [List.insertionSort, filter_orderedInsert_score, h, hb, List.filter, ih]
      · have hb : (x.1 == sc) = false := by simp [h]
        simp [List.insertionSort, filter_orderedInsert_score, h, hb, List.filter, ih]

theorem sortBucket_pairwise (b : List PageTuple) :
    List.Pairwise (fun a c : PageTuple => c.1 ≤ a.1) (sortBucket b) :=
  List.sorted_insertionSort bucketGE b

/-! ## Concrete values for witnesses -/

/-- A sample page. -/
def pageA : Page := { url := "http://www.a.com", knowledgeTokens := ["harvard"] }

/-- A second sample page. -/
def pageB : Page := { url := "http://www.b.com", knowledgeTokens := ["harvard", "yale"] }

/-- A sample page whose only token is outside the vocabulary. -/
def pageU : Page := { url := "http://www.u.com", knowledgeTokens := ["zzz"] }

/-! ## Claims -/

/-- C1: for a key present with bucket `b`, `sort_key` stores the stable
descending sort of `b`: every (in particular every adjacent) pair of the
stored bucket is non-increasing by score, and for each score value the
postings carrying it keep their relative insertion order (the per-score
filter of the bucket is unchanged). -/
theorem sort_key_sorted_and_stable (s : Store) (key : String) (b : List PageTuple)
    (h : dictGet s key = some b) :
    sort_key s key = .ok (dictSet s key (sortBucket b)) ∧
    dictGet (dictSet s key (sortBucket b)) key = some (sortBucket b) ∧
    List.Pairwise (fun a c : PageTuple => c.1 ≤ a.1) (sortBucket b) ∧
    ∀ sc : Int, (sortBucket b).filter (fun p => p.1 == sc) =
      b.filter (fun p => p.1 == sc) := by
  refine ⟨?_, dictGet_dictSet_self s key (sortBucket b), sortBucket_pairwise b,
    fun sc => filter_sortBucket b sc⟩
  simp [sort_key, h]

/-- Witness for C1 on the bucket `[(2, pageA), (9, pageB), (5, pageA)]`. -/
theorem sort_key_sorted_and_stable_witness :
    sort_key [("harvard", [(2, pageA), (9, pageB), (5, pageA)])] "harvard" =
      .ok (dictSet [("harvard", [(2, pageA), (9, pageB), (5, pageA)])] "harvard"
        (sortBucket [(2, pageA), (9, pageB), (5, pageA)])) ∧
    List.Pairwise (fun a c : PageTuple => c.1 ≤ a.1)
      (sortBucket [(2, pageA), (9, pageB), (5, pageA)]) :=
  ⟨(sort_key_sorted_and_stable [("harvard", [(2, pageA), (9, pageB), (5, pageA)])]
      "harvard" [(2, pageA), (9, pageB), (5, pageA)] (by decide)).1,
   (sort_key_sorted_and_stable [("harvard", [(2, pageA), (9, pageB), (5, pageA)])]
      "harvard" [(2, pageA), (9, pageB), (5, pageA)] (by decide)).2.2.1⟩

/-- C2: enqueuing a location already in the dedup set is a silent no-op, and
enqueuing a fresh location twice leaves exactly one entry for it in the
pending queue (the second call changes nothing). -/
theorem enqueue_dedup (st : CrawlState) (u : String) :
    (u ∈ st.scrapedUrls → enqueue_urlList st [u] = st) ∧
    (u ∉ st.scrapedUrls → u ∉ st.urlQueue →
      enqueue_urlList (enqueue_urlList st [u]) [u] = enqueue_urlList st [u] ∧
      (enqueue_urlList (enqueue_urlList st [u]) [u]).urlQueue.count u = 1) := by
  constructor
  · intro hmem
    simp [enqueue_urlList, enqueue_step, hmem]
  · intro hseen hq
    have h1 : enqueue_urlList st [u] =
        { scrapedUrls := st.scrapedUrls ++ [u], urlQueue := st.urlQueue ++ [u] } := by
      simp [enqueue_urlList, enqueue_step, hseen]
    have hmem2 : u ∈ st.scrapedUrls ++ [u] := by simp
    constructor
    · rw [h1]
      simp [enqueue_urlList, enqueue_step, hmem2]
    · rw [h1]
      simp [enqueue_urlList, enqueue_step, hmem2, List.count_append,
        List.count_eq_zero.mpr hq]

/-- Witness for C2 from the empty crawl state. -/
theorem enqueue_dedup_witness :
    enqueue_urlList (enqueue_urlList ⟨[], []⟩ ["http://www.a.com"]) ["http://www.a.com"] =
      enqueue_urlList ⟨[], []⟩ ["http://www.a.com"] ∧
    (enqueue_urlList (enqueue_urlList ⟨[], []⟩ ["http://www.a.com"])
      ["http://www.a.com"]).urlQueue.count "http://www.a.com" = 1 :=
  (enqueue_dedup ⟨[], []⟩ "http://www.a.com").2 (by decide) (by decide)

/-- C3: a token that is not a key of the store is skipped by `bucket_page`
without error and without change: the per-token step leaves the store as it
was (the `KeyError` of the insert is caught), and the loop continues with
the remaining tokens. -/
theorem bucket_page_skips_unknown (score_single : Page → String → Except PyErr Int)
    (pageObj : Page) (s : Store) (t : String) (ts : List String)
    (h : pageObj.knowledgeTokens = t :: ts) (hk : t ∉ keys s) :
    bucket_step score_single pageObj s t = s ∧
    bucket_page score_single s pageObj = bucket_pageAux score_single pageObj s ts := by
  have hnone : dictGet s t = none := (dictGet_eq_none_iff s t).mpr hk
  have hstep : bucket_step score_single pageObj s t = s := by
    unfold bucket_step
    cases score_single pageObj t with
    | error e => rfl
    | ok sc => simp [insert_pageTuple, hnone]
  exact ⟨hstep, by simp [bucket_page, h, bucket_pageAux, hstep]⟩

/-- Witness for C3: the token `"zzz"` of `pageU` is not a key of the store
`[("harvard", [])]`, so the step is the identity. -/
theorem bucket_page_skips_unknown_witness :
    bucket_step (fun _ _ => Except.ok 1) pageU [("harvard", [])] "zzz" =
      [("harvard", [])] ∧
    bucket_page (fun _ _ => Except.ok 1) [("harvard", [])] pageU =
      bucket_pageAux (fun _ _ => Except.ok 1) pageU [("harvard", [])] [] :=
  bucket_page_skips_unknown (fun _ _ => Except.ok 1) pageU [("harvard", [])]
    "zzz" [] rfl (by decide)

/-- C4 counterexample: `remove_key` on a term with no bucket is not a no-op;
`del self.topDict[key]` raises `KeyError` on the empty store. -/
theorem remove_key_missing_raises :
    remove_key [] "a" = .error (.keyError "a") := by
  rfl

/-- C4 amended: `remove_key` on an existing term deletes exactly that term's
bucket (the term is gone, every other key is untouched); on a term with no
bucket it raises `KeyError` instead of returning normally. -/
theorem remove_key_present_or_raises (s : Store) (k : String) :
    (k ∈ keys s → (keys s).Nodup →
      remove_key s k = .ok (delKey s k) ∧
      dictGet (delKey s k) k = none ∧
      (∀ k2, k2 ≠ k → dictGet (delKey s k) k2 = dictGet s k2)) ∧
    (k ∉ keys s → remove_key s k = .error (.keyError k)) := by
  constructor
  · intro hmem hnd
    exact ⟨by simp [remove_key, hmem], dictGet_delKey_self s k hnd,
      fun k2 hk2 => dictGet_delKey_ne s k k2 hk2⟩
  · intro hmem
    simp [remove_key, hmem]

/-- Witness for C4 on a two-key store and on the empty store. -/
theorem remove_key_present_or_raises_witness :
    remove_key [("a", []), ("b", [])] "a" = .ok (delKey [("a", []), ("b", [])] "a") ∧
    remove_key ([] : Store) "b" = .error (.keyError "b") :=
  ⟨((remove_key_present_or_raises [("a", []), ("b", [])] "a").1
      (by decide) (by decide)).1,
   (remove_key_present_or_raises [] "b").2 (by decide)⟩

/-- C5: `save` (`json.dump(self.topDict, ...)`) raises `TypeError` on any
store holding a posting, because the `Page` object inside the page tuple is
not JSON serializable; the snapshot round trip of the claim therefore fails
before `load` can run. -/
theorem save_raises_on_posting :
    save [("harvard", [(5, pageA)])] =
      .error (.typeError "Object of type Page is not JSON serializable") := by
  rfl

/-- C6 counterexample: under the defaults of `scrape_urlList` the queue
capacity (10) is not strictly greater than the worker count (20), and
`urlQueue.put` blocks instead of dropping overflow. -/
theorem frontier_sizing_violated :
    ¬ (defaultQueueDepth > defaultWorkerNum ∨ urlQueuePutBlocks = false) := by
  decide

/-- C6 amended: under the program's default configuration the pending-queue
capacity (`queueDepth = 10`) is strictly smaller than the number of workers
(`workerNum = 20`), and enqueue blocks when the queue is at capacity. -/
theorem frontier_sizing_actual :
    defaultQueueDepth < defaultWorkerNum ∧ urlQueuePutBlocks = true := by
  decide

/-- C7: on a key present with bucket `b`, `search_full` returns exactly the
first `min n (length b)` postings, in the bucket's current order; the
method reads the store and assigns nothing, so the store is unchanged. -/
theorem search_full_topN (s : Store) (k : String) (n : Nat) (b : List PageTuple)
    (h : dictGet s k = some b) :
    search_full s k n = .ok (b.take n) ∧ (b.take n).length = min n b.length :=
  ⟨by simp [search_full, h], by simp⟩

/-- Witness for C7 with `n = 1` on a two-posting bucket. -/
theorem search_full_topN_witness :
    search_full [("harvard", [(1, pageA), (2, pageB)])] "harvard" 1 =
      .ok (([(1, pageA), (2, pageB)] : List PageTuple).take 1) ∧
    (([(1, pageA), (2, pageB)] : List PageTuple).take 1).length =
      min 1 ([(1, pageA), (2, pageB)] : List PageTuple).length :=
  search_full_topN [("harvard", [(1, pageA), (2, pageB)])] "harvard" 1
    [(1, pageA), (2, pageB)] (by decide)

/-- C8: `clean_url` is idempotent (and, being a total function of its input,
deterministic and non-throwing): every output either is returned unchanged
by a second pass (parsable, or already starting with `http`) or gains the
`http://` prefix once and then starts with `http`. -/
theorem clean_url_idempotent (parsable : List Char → Bool) (u : List Char)
    (h : u ≠ []) :
    clean_url parsable (clean_url parsable u) = clean_url parsable u := by
  by_cases hp : parsable u
  · simp [clean_url, hp]
  · by_cases hh : ("http".data).isPrefixOf u
    · simp [clean_url, hp, hh]
    · have hpre : ("http".data).isPrefixOf (("http://".data) ++ u) := by
        rw [List.isPrefixOf_iff_prefix]
        exact List.IsPrefix.trans (by decide) (List.prefix_append _ _)
      have hpre2 : ("http".data).isPrefixOf (("http://www.".data) ++ u) := by
        rw [List.isPrefixOf_iff_prefix]
        exact List.IsPrefix.trans (by decide) (List.prefix_append _ _)
      by_cases hw : ("www".data).isPrefixOf u
      · have hres : clean_url parsable u = "http://".data ++ u := by
          simp [clean_url, hp, hh, hw]
        rw [hres]
        by_cases hp2 : parsable ("http://".data ++ u)
        · simp [clean_url, hp2]
        · simp [clean_url, hp2, hpre]
      · have hres : clean_url parsable u = "http://www.".data ++ u := by
          simp [clean_url, hp, hh, hw]
        rw [hres]
        by_cases hp2 : parsable ("http://www.".data ++ u)
        · simp [clean_url, hp2]
        · simp [clean_url, hp2, hpre2]

/-- Witness for C8 on the bare host name `a.com` with a predicate that
accepts nothing. -/
theorem clean_url_idempotent_witness :
    clean_url (fun _ => false) (clean_url (fun _ => false) ("a.com".data)) =
      clean_url (fun _ => false) ("a.com".data) :=
  clean_url_idempotent (fun _ => false) ("a.com".data) (by decide)

/-- C9: `remove_value` on a present key filters out of that key's bucket
exactly the postings whose page url equals the given url — the kept
postings are the filter of the old bucket, hence in their old relative
order and all with a different url — and every other key's bucket is
unchanged. -/
theorem remove_value_frame (s : Store) (k url : String) (b : List PageTuple)
    (h : dictGet s k = some b) :
    remove_value s k url =
      .ok (dictSet s k (b.filter (fun pt => pt.2.url ≠ url))) ∧
    dictGet (dictSet s k (b.filter (fun pt => pt.2.url ≠ url))) k =
      some (b.filter (fun pt => pt.2.url ≠ url)) ∧
    (∀ pt ∈ b.filter (fun pt => pt.2.url ≠ url), pt.2.url ≠ url) ∧
    (∀ k2, k2 ≠ k →
      dictGet (dictSet s k (b.filter (fun pt => pt.2.url ≠ url))) k2 =
        dictGet s k2) := by
  refine ⟨by simp [remove_value, h], dictGet_dictSet_self s k _, ?_,
    fun k2 hk2 => dictGet_dictSet_ne s k k2 _ hk2⟩
  intro pt hpt
  have hmem := List.of_mem_filter hpt
  simpa using hmem

/-- Witness for C9: removing `pageA`'s url from the `"harvard"` bucket of a
two-key store leaves the `"yale"` bucket untouched. -/
theorem remove_value_frame_witness :
    remove_value [("harvard", [(1, pageA), (2, pageB)]), ("yale", [(3, pageB)])]
      "harvard" "http://www.a.com" =
      .ok (dictSet [("harvard", [(1, pageA), (2, pageB)]), ("yale", [(3, pageB)])]
        "harvard"
        (([(1, pageA), (2, pageB)] : List PageTuple).filter
          (fun pt => pt.2.url ≠ "http://www.a.com"))) ∧
    dictGet (dictSet [("harvard", [(1, pageA), (2, pageB)]), ("yale", [(3, pageB)])]
        "harvard"
        (([(1, pageA), (2, pageB)] : List PageTuple).filter
          (fun pt => pt.2.url ≠ "http://www.a.com"))) "yale" =
      dictGet [("harvard", [(1, pageA), (2, pageB)]), ("yale", [(3, pageB)])] "yale" :=
  ⟨(remove_value_frame [("harvard", [(1, pageA), (2, pageB)]), ("yale", [(3, pageB)])]
      "harvard" "http://www.a.com" [(1, pageA), (2, pageB)] (by decide)).1,
   (remove_value_frame [("harvard", [(1, pageA), (2, pageB)]), ("yale", [(3, pageB)])]
      "harvard" "http://www.a.com" [(1, pageA), (2, pageB)] (by decide)).2.2.2
      "yale" (by decide)⟩

/-- C10: on a present key, clipping to zero elements is exactly clearing:
`clip_key key 0` succeeds and produces the same store as `clear_key key`
(the bucket becomes empty, nothing else moves). -/
theorem clear_key_eq_clip_key_zero (s : Store) (k : String) (h : k ∈ keys s) :
    clip_key s k 0 = .ok (clear_key s k) := by
  rcases mem_keys_exists_bucket s k h with ⟨b, hb⟩
  simp [clip_key, clear_key, hb]

/-- Witness for C10 on a store whose `"harvard"` bucket holds one posting. -/
theorem clear_key_eq_clip_key_zero_witness :
    clip_key [("harvard", [(1, pageA)])] "harvard" 0 =
      .ok (clear_key [("harvard", [(1, pageA)])] "harvard") :=
  clear_key_eq_clip_key_zero [("harvard", [(1, pageA)])] "harvard" (by decide)
